import Mathlib

/-!
Verification development for the client-side synchronization core of the
`spaceship-online-game` repository (directory `client-rust/src`).

The Rust source is shallowly embedded:
* `f64` values are embedded as `ℚ` (exact decimal literals, ideal arithmetic);
* `i32`/`i64` counters are embedded as `ℤ`, `u64` tick as `ℕ`;
* `HashMap<String, T>` is embedded as an association list with
  replace-on-insert semantics (`AList`); iteration order is the list order
  (the Rust `HashMap` order is unspecified, and no verified property below
  depends on the order);
* fallible/optional wire fields are `Option`;
* ambient effects (`performance.now()`, signals, canvas drawing, URL pushes)
  are passed in as explicit arguments or dropped when they do not feed back
  into the embedded state.

Every definition mirrors a named item of the source; the source file and
line ranges are given in the doc comments.
-/

set_option autoImplicit false

namespace SpaceGame

/-- Session/match lifecycle phase, from `state.rs` (`enum Phase`). -/
inductive Phase where
  | Lobby
  | MatchLobby
  | Countdown
  | Playing
  | Dead
  | Result
  deriving DecidableEq, Repr

/-- Game mode, from `state.rs` (`enum GameMode`). -/
inductive GameMode where
  | FFA
  | TDM
  | CTF
  | WaveSurvival
  deriving DecidableEq, Repr

/-- Decoding of the wire `mode` integer, from `state.rs` (`GameMode::from_i32`):
any value other than 1, 2, 3 falls back to `FFA`. -/
def GameMode.from_i32 (v : ℤ) : GameMode :=
  if v = 1 then GameMode.TDM
  else if v = 2 then GameMode.CTF
  else if v = 3 then GameMode.WaveSurvival
  else GameMode.FFA

/-- Death-cause info shown on the death screen, from `state.rs` (`struct DeathInfo`). -/
structure DeathInfo where
  killer_name : String
  deriving DecidableEq, Repr

/-- Player record on the wire, from `protocol.rs` (`struct PlayerState`).
`vx`/`vy` are `Option` because delta compression omits them when unchanged. -/
structure PlayerState where
  id : String
  n : String
  x : ℚ
  y : ℚ
  r : ℚ
  vx : Option ℚ
  vy : Option ℚ
  hp : ℤ
  mhp : ℤ
  s : ℤ
  sc : ℤ
  a : Bool
  b : Bool
  tm : ℤ
  cl : ℤ
  acd : ℚ
  aact : Bool
  sp : Bool
  sk : String
  tr : String
  deriving DecidableEq, Repr

/-- Mob record on the wire, from `protocol.rs` (`struct MobState`). -/
structure MobState where
  id : String
  x : ℚ
  y : ℚ
  r : ℚ
  vx : Option ℚ
  vy : Option ℚ
  hp : ℤ
  mhp : ℤ
  s : ℤ
  a : Bool
  deriving DecidableEq, Repr

/-- Projectile record on the wire, from `protocol.rs` (`struct ProjectileState`). -/
structure ProjectileState where
  id : String
  x : ℚ
  y : ℚ
  r : ℚ
  o : String
  deriving DecidableEq, Repr

/-- Asteroid record on the wire, from `protocol.rs` (`struct AsteroidState`). -/
structure AsteroidState where
  id : String
  x : ℚ
  y : ℚ
  r : ℚ
  deriving DecidableEq, Repr

/-- Pickup record on the wire, from `protocol.rs` (`struct PickupState`). -/
structure PickupState where
  id : String
  x : ℚ
  y : ℚ
  deriving DecidableEq, Repr

/-- Heal-zone record on the wire, from `protocol.rs` (`struct HealZoneState`). -/
structure HealZoneState where
  id : String
  x : ℚ
  y : ℚ
  r : ℚ
  deriving DecidableEq, Repr

/-- Per-player match-result line, from `protocol.rs` (`struct PlayerMatchResult`). -/
structure PlayerMatchResult where
  id : String
  n : String
  tm : ℤ
  k : ℤ
  d : ℤ
  a : ℤ
  sc : ℤ
  mvp : Bool
  deriving DecidableEq, Repr

/-- Full binary state snapshot, from `protocol.rs` (`struct GameStateMsg`). -/
structure GameStateMsg where
  p : List PlayerState
  pr : List ProjectileState
  m : List MobState
  a : List AsteroidState
  pk : List PickupState
  tick : ℕ
  mp : ℤ
  tl : ℚ
  trs : ℤ
  tbs : ℤ
  hz : List HealZoneState
  deriving DecidableEq, Repr

/-- Decoded `match_phase` control message, from `protocol.rs` (`struct MatchPhaseMsg`). -/
structure MatchPhaseMsg where
  phase : ℤ
  mode : ℤ
  time_left : ℚ
  countdown : ℚ
  deriving DecidableEq, Repr

/-- Embedding of Rust `HashMap<String, T>` as an association list.
Only `insert` (replace) and `get` (lookup) are used by the embedded code. -/
abbrev AList (α : Type) : Type := List (String × α)

/-- Embedding of `HashMap::get`: the first entry with the given key. -/
def alGet {α : Type} (k : String) (m : AList α) : Option α :=
  (m.find? (fun kv => kv.1 == k)).map (fun kv => kv.2)

/-- Embedding of `HashMap::insert`: replaces any previous binding of the key. -/
def alInsert {α : Type} (k : String) (v : α) (m : AList α) : AList α :=
  (k, v) :: m.filter (fun kv => !(kv.1 == k))

/-- Empty map (embedding of `HashMap::new` / the state after `clear()`). -/
def alEmpty {α : Type} : AList α := []

/-- The slice of the Rust `GameState` (from `state.rs`) that the embedded
operations (`handle_state`, `send_input`, the `match_phase` handler and the
renderer interpolation) read or write.  Fields of the Rust struct that none
of the embedded operations touch (auth/profile data, chat, store, visual
effect buffers, kill feed, screen shake, team rosters) are omitted. -/
structure GameState where
  connected : Bool
  my_id : Option String
  my_ship : ℤ
  session_id : Option String
  url_session_id : Option String
  players : AList PlayerState
  projectiles : AList ProjectileState
  mobs : AList MobState
  asteroids : AList AsteroidState
  pickups : AList PickupState
  heal_zones : List HealZoneState
  tick : ℕ
  screen_w : ℚ
  screen_h : ℚ
  cam_x : ℚ
  cam_y : ℚ
  cam_zoom : ℚ
  mouse_x : ℚ
  mouse_y : ℚ
  firing : Bool
  boosting : Bool
  ability_pressed : Bool
  shift_pressed : Bool
  hyperspace_locked_r : Option ℚ
  phase : Phase
  death_info : Option DeathInfo
  game_mode : GameMode
  match_phase : ℤ
  match_time_left : ℚ
  countdown_time : ℚ
  team_red_score : ℤ
  team_blue_score : ℤ
  is_ready : Bool
  match_result : Option (ℤ × List PlayerMatchResult × ℚ)
  controller_attached : Bool
  is_mobile : Bool
  prev_players : AList PlayerState
  prev_mobs : AList MobState
  prev_cam_x : ℚ
  prev_cam_y : ℚ
  interp_last_update : ℚ
  interp_interval : ℚ
  deriving DecidableEq

/-- Initial state, from `state.rs` (`GameState::new`), restricted to the
embedded fields.  In particular `interp_interval` starts at `33.33` ms. -/
def GameState.new : GameState where
  connected := false
  my_id := none
  my_ship := 0
  session_id := none
  url_session_id := none
  players := alEmpty
  projectiles := alEmpty
  mobs := alEmpty
  asteroids := alEmpty
  pickups := alEmpty
  heal_zones := []
  tick := 0
  screen_w := 0
  screen_h := 0
  cam_x := 0
  cam_y := 0
  cam_zoom := 1
  mouse_x := 0
  mouse_y := 0
  firing := false
  boosting := false
  ability_pressed := false
  shift_pressed := false
  hyperspace_locked_r := none
  phase := Phase.Lobby
  death_info := none
  game_mode := GameMode.FFA
  match_phase := 0
  match_time_left := 0
  countdown_time := 0
  team_red_score := 0
  team_blue_score := 0
  is_ready := false
  match_result := none
  controller_attached := false
  is_mobile := false
  prev_players := alEmpty
  prev_mobs := alEmpty
  prev_cam_x := 0
  prev_cam_y := 0
  interp_last_update := 0
  interp_interval := 33.33

/-- Velocity backfill for one incoming player record, from `network.rs`
`handle_state` lines 753-760: a component omitted by delta compression is
copied from the same id in the previous collection when that id exists. -/
def mergePlayer (prev : AList PlayerState) (p : PlayerState) : PlayerState :=
  if p.vx.isNone || p.vy.isNone then
    match alGet p.id prev with
    | some q =>
        { p with vx := if p.vx.isNone then q.vx else p.vx,
                 vy := if p.vy.isNone then q.vy else p.vy }
    | none => p
  else p

/-- Velocity backfill for one incoming mob record, from `network.rs`
`handle_state` lines 770-776. -/
def mergeMob (prev : AList MobState) (m : MobState) : MobState :=
  if m.vx.isNone || m.vy.isNone then
    match alGet m.id prev with
    | some q =>
        { m with vx := if m.vx.isNone then q.vx else m.vx,
                 vy := if m.vy.isNone then q.vy else m.vy }
    | none => m
  else m

/-- Collection / timing part of `network.rs` `handle_state` (lines 724-795):
current collections move to previous, the inter-tick interval estimate is
smoothed when the elapsed sample is plausible, and the incoming collections
are installed with delta-compressed velocities backfilled.  `now` is the
`performance.now()` reading at message arrival. -/
def applySnapshot (s : GameState) (gs : GameStateMsg) (now : ℚ) : GameState :=
  let prev_players := s.players
  let prev_mobs := s.mobs
  let elapsed := now - s.interp_last_update
  let interp_interval :=
    if s.interp_last_update > 0 then
      if elapsed > 10 ∧ elapsed < 200 then s.interp_interval * 0.8 + elapsed * 0.2
      else s.interp_interval
    else s.interp_interval
  { s with
    prev_players := prev_players,
    prev_mobs := prev_mobs,
    prev_cam_x := s.cam_x,
    prev_cam_y := s.cam_y,
    interp_last_update := now,
    interp_interval := interp_interval,
    players := gs.p.foldl (fun acc p => alInsert p.id (mergePlayer prev_players p) acc) alEmpty,
    projectiles := gs.pr.foldl (fun acc pr => alInsert pr.id pr acc) alEmpty,
    mobs := gs.m.foldl (fun acc m => alInsert m.id (mergeMob prev_mobs m) acc) alEmpty,
    asteroids := gs.a.foldl (fun acc a => alInsert a.id a acc) alEmpty,
    pickups := gs.pk.foldl (fun acc pk => alInsert pk.id pk acc) alEmpty,
    heal_zones := gs.hz,
    tick := gs.tick,
    match_phase := gs.mp,
    match_time_left := gs.tl,
    team_red_score := gs.trs,
    team_blue_score := gs.tbs }

/-- Camera-follow and Playing/Dead transition part of `network.rs`
`handle_state` (lines 797-822): runs only when the local player id is set
and present in the freshly installed player collection. -/
def updateCameraPhase (s : GameState) : GameState :=
  match s.my_id with
  | none => s
  | some myId =>
    match alGet myId s.players with
    | none => s
    | some me =>
      let s2 := { s with cam_x := me.x, cam_y := me.y }
      let s3 :=
        if s2.controller_attached then { s2 with boosting := me.b, shift_pressed := me.b }
        else s2
      if me.a = false ∧ s3.phase = Phase.Playing then { s3 with phase := Phase.Dead }
      else if me.a = true ∧ s3.phase = Phase.Dead then
        { s3 with phase := Phase.Playing, death_info := none }
      else s3

/-- Whole snapshot application, `network.rs` `handle_state` (lines 723-823). -/
def handleState (s : GameState) (gs : GameStateMsg) (now : ℚ) : GameState :=
  updateCameraPhase (applySnapshot s gs now)

/-- Effective value of an optional velocity component: every reader of the
merged state uses `unwrap_or(0.0)` (e.g. `renderer.rs` lines 182-183), so an
absent component means velocity zero. -/
def effVel (v : Option ℚ) : ℚ := v.getD 0

/-- Exact rational value of the `f64` constant `std::f64::consts::PI`. -/
def PI : ℚ := 884279719003555 / 281474976710656

/-- First normalization loop of `lerp_angle` (`renderer.rs` line 11):
`while diff > PI, diff -= 2*PI`. -/
def normDown (d : ℚ) : ℚ :=
  if d > PI then normDown (d - 2 * PI) else d
termination_by (⌈(d - PI) / (2 * PI)⌉).toNat
decreasing_by
  have hpi : (0 : ℚ) < PI := by norm_num [PI]
  have h2 : (0 : ℚ) < 2 * PI := by linarith
  have key : (d - 2 * PI - PI) / (2 * PI) = (d - PI) / (2 * PI) - 1 := by
    field_simp
    ring
  rw [key, Int.ceil_sub_one]
  have hx : (0 : ℚ) < (d - PI) / (2 * PI) := by
    apply div_pos
    · linarith
    · exact h2
  have hc : 1 ≤ ⌈(d - PI) / (2 * PI)⌉ := Int.ceil_pos.mpr hx
  omega

/-- Second normalization loop of `lerp_angle` (`renderer.rs` line 12):
`while diff < -PI, diff += 2*PI`. -/
def normUp (d : ℚ) : ℚ :=
  if d < -PI then normUp (d + 2 * PI) else d
termination_by (⌈(-PI - d) / (2 * PI)⌉).toNat
decreasing_by
  have hpi : (0 : ℚ) < PI := by norm_num [PI]
  have h2 : (0 : ℚ) < 2 * PI := by linarith
  have key : (-PI - (d + 2 * PI)) / (2 * PI) = (-PI - d) / (2 * PI) - 1 := by
    field_simp
    ring
  rw [key, Int.ceil_sub_one]
  have hx : (0 : ℚ) < (-PI - d) / (2 * PI) := by
    apply div_pos
    · linarith
    · exact h2
  have hc : 1 ≤ ⌈(-PI - d) / (2 * PI)⌉ := Int.ceil_pos.mpr hx
  omega

/-- Shortest-path angle interpolation, from `renderer.rs` `lerp_angle`
(lines 8-14): the difference is wrapped into `[-PI, PI]` by the two loops
before scaling by the factor `t`. -/
def lerp_angle (a b t : ℚ) : ℚ :=
  let diff := normUp (normDown (b - a))
  a + diff * t

/-- Interpolated player pose `(x, y, rotation)` for an entity that has both a
previous and a current record, from `renderer.rs` `render` lines 168-171. -/
def interpPlayerPose (prev cur : PlayerState) (t : ℚ) : ℚ × ℚ × ℚ :=
  (prev.x + (cur.x - prev.x) * t,
   prev.y + (cur.y - prev.y) * t,
   lerp_angle prev.r cur.r t)

/-- Interpolated mob pose, from `renderer.rs` `render` lines 197-200
(same formula as for players). -/
def interpMobPose (prev cur : MobState) (t : ℚ) : ℚ × ℚ × ℚ :=
  (prev.x + (cur.x - prev.x) * t,
   prev.y + (cur.y - prev.y) * t,
   lerp_angle prev.r cur.r t)

/-- Interpolation factor computed each frame, from `renderer.rs` `render`
lines 66-67: `(elapsed / interp_interval).min(1.0).max(0.0)` guarded by
`interp_interval > 0.0`. -/
def interpFactor (s : GameState) (now : ℚ) : ℚ :=
  let elapsed := now - s.interp_last_update
  if s.interp_interval > 0 then max (min (elapsed / s.interp_interval) 1) 0 else 1

/-- Outbound command emitted as a side effect by a message handler. -/
inductive ClientCmd where
  | leave
  deriving DecidableEq, Repr

/-- Handler of the `match_phase` control message, from `network.rs`
`handle_message` (lines 491-539).  The mode and raw phase scalars are stored
first; phase 0 (lobby) branches on the just-stored mode: free-for-all
returns to the main lobby clearing session/player identity and emitting a
`leave` command, team modes stay in the match lobby.  The URL push and the
reactive signal mirror are external side effects and are not part of the
embedded state. -/
def handleMatchPhase (s0 : GameState) (mp : MatchPhaseMsg) : GameState × List ClientCmd :=
  let s := { s0 with game_mode := GameMode.from_i32 mp.mode,
                     match_phase := mp.phase,
                     countdown_time := mp.countdown }
  if mp.phase = 0 then
    let s1 := { s with is_ready := false, match_result := none }
    if s1.game_mode = GameMode.FFA then
      ({ s1 with session_id := none, my_id := none, controller_attached := false,
                 phase := Phase.Lobby }, [ClientCmd.leave])
    else
      ({ s1 with phase := Phase.MatchLobby }, [])
  else if mp.phase = 1 then ({ s with phase := Phase.Countdown }, [])
  else if mp.phase = 2 then ({ s with phase := Phase.Playing }, [])
  else if mp.phase = 3 then ({ s with phase := Phase.Result }, [])
  else (s, [])

/-- Candidate entity for the aim assist, reduced to id and position, from
`auto_aim.rs` (`struct Enemy`).  The controller path (`controller.rs`) uses
the same shape. -/
structure Enemy where
  id : String
  x : ℚ
  y : ℚ
  deriving DecidableEq, Repr

/-- Persistent aim-assist state, from `auto_aim.rs` (`struct AimState`). -/
structure AimState where
  target_id : Option String
  target_x : ℚ
  target_y : ℚ
  progress : ℚ
  spin_angle : ℚ
  deriving DecidableEq, Repr

/-- Default aim state (`AimState::default()`). -/
def AimState.init : AimState :=
  { target_id := none, target_x := 0, target_y := 0, progress := 0, spin_angle := 0 }

/-- Detection radius shared by both aim paths (`AIM_DETECT_R` in both
`auto_aim.rs` and `controller.rs`). -/
def AIM_DETECT_R : ℚ := 150

/-- Orbit radius shared by both aim paths (`AIM_ORBIT_R`). -/
def AIM_ORBIT_R : ℚ := 360

/-- Candidate list construction, from `auto_aim.rs` lines 51-59: all other
active players (ids prefixed with a player marker) followed by all active
mobs (ids prefixed with a mob marker). -/
def buildEnemies (myId : String) (players : AList PlayerState) (mobs : AList MobState) :
    List Enemy :=
  (players.filter (fun kv => !(kv.1 == myId) && kv.2.a)).map
      (fun kv => { id := "p_" ++ kv.1, x := kv.2.x, y := kv.2.y })
    ++ (mobs.filter (fun kv => kv.2.a)).map
      (fun kv => { id := "m_" ++ kv.1, x := kv.2.x, y := kv.2.y })

/-- Squared distance of a candidate to the orbit point: the
`dx * dx + dy * dy` computed by every distance check in `auto_aim.rs` and
`controller.rs`. -/
def dist2 (ox oy : ℚ) (e : Enemy) : ℚ :=
  (e.x - ox) * (e.x - ox) + (e.y - oy) * (e.y - oy)

/-- A candidate is in range when its squared distance to the orbit point is
at most the squared detection radius. -/
def inRange (ox oy : ℚ) (e : Enemy) : Prop :=
  dist2 ox oy e ≤ AIM_DETECT_R * AIM_DETECT_R

/-- Sticky lock check, from `auto_aim.rs` lines 67-78: the locked id keeps the
lock exactly when it is still among the candidates and its current squared
distance to the orbit point is at most the squared detection radius; on
success its current position is returned.  (`controller.rs` lines 496-507
inline the identical find-and-test.) -/
def stickyKeep (enemies : List Enemy) (ox oy : ℚ) (tid : String) : Option (ℚ × ℚ) :=
  match enemies.find? (fun (e : Enemy) => e.id == tid) with
  | some t =>
    if dist2 ox oy t ≤ AIM_DETECT_R * AIM_DETECT_R then some (t.x, t.y) else none
  | none => none

/-- Loop body of the acquisition scan, from `auto_aim.rs` lines 84-93:
a candidate at squared distance at most the current best (which is seeded
with the squared detection radius) becomes the new best; the `≤` comparison
means a later candidate at equal distance replaces an earlier one. -/
def scanStep (ox oy : ℚ) (acc : Option Enemy × ℚ) (e : Enemy) : Option Enemy × ℚ :=
  if dist2 ox oy e ≤ acc.2 then (some e, dist2 ox oy e) else acc

/-- Acquisition scan, from `auto_aim.rs` lines 82-94: running minimum of the
squared distance to the orbit point over all candidates in encounter order. -/
def scanBest (enemies : List Enemy) (ox oy : ℚ) : Option Enemy × ℚ :=
  enemies.foldl (scanStep ox oy) (none, AIM_DETECT_R * AIM_DETECT_R)

/-- Target-lock update on the primary (renderer aim-assist) path, from
`auto_aim.rs` `update_and_draw_controller_aim` lines 63-95 (the drawing and
progress animation below line 97 do not feed back into the lock). -/
def updateAimLock (enemies : List Enemy) (ox oy : ℚ) (aim : AimState) : AimState :=
  let kept :=
    match aim.target_id with
    | some tid => stickyKeep enemies ox oy tid
    | none => none
  match kept with
  | some txy => { aim with target_x := txy.1, target_y := txy.2 }
  | none =>
    match scanBest enemies ox oy with
    | (some e, _) => { aim with target_id := some e.id, target_x := e.x, target_y := e.y }
    | (none, _) => { aim with target_id := none }

/-- Loop body of the remote-controller rescan, from `controller.rs` lines
511-522: same running-minimum rule as `scanStep`, but the accumulator keeps
`(lock_id, target_x, target_y, best_dist)`. -/
def ctrlScanStep (ox oy : ℚ) (acc : Option String × ℚ × ℚ × ℚ) (e : Enemy) :
    Option String × ℚ × ℚ × ℚ :=
  if dist2 ox oy e ≤ acc.2.2.2 then (some e.id, e.x, e.y, dist2 ox oy e) else acc

/-- Remote-controller rescan, from `controller.rs` lines 509-523 (initial
`target_x`/`target_y` are the Rust locals initialized to `0.0`). -/
def ctrlScan (enemies : List Enemy) (ox oy : ℚ) : Option String × ℚ × ℚ × ℚ :=
  enemies.foldl (ctrlScanStep ox oy) (none, 0, 0, AIM_DETECT_R * AIM_DETECT_R)

/-- Target-lock update on the remote-controller path, from `controller.rs`
`send_input` lines 491-523; result is `(lock_target_id, target_x, target_y,
locked)`.  The sticky branch (lines 496-507) performs the same
find-and-test as `stickyKeep`, keeping the locked id on success. -/
def ctrlUpdateLock (enemies : List Enemy) (ox oy : ℚ) (lockId0 : Option String) :
    Option String × ℚ × ℚ × Bool :=
  let sticky : Option (String × ℚ × ℚ) :=
    match lockId0 with
    | some tid =>
      match stickyKeep enemies ox oy tid with
      | some txy => some (tid, txy.1, txy.2)
      | none => none
    | none => none
  match sticky with
  | some skv => (some skv.1, skv.2.1, skv.2.2, true)
  | none =>
    match ctrlScan enemies ox oy with
    | (some tid, tx, ty, _) => (some tid, tx, ty, true)
    | (none, _, _, _) => (none, 0, 0, false)

/-- Rust `f64::round` (round half away from zero), on rationals. -/
def roundQ (x : ℚ) : ℤ := if x ≥ 0 then ⌊x + 1 / 2⌋ else ⌈x - 1 / 2⌉

/-- Saturating Rust cast `as i16` applied to an integral float value. -/
def clampI16 (z : ℤ) : ℤ := max (-32768) (min 32767 z)

/-- Abstract interface for the transcendental `f64` operations used by
`send_input` (`cos`, `sin`, `atan2`).  The verified properties about
`send_input` hold for every interpretation of these operations, so no
floating-point model of them is needed. -/
structure TrigOps where
  cosQ : ℚ → ℚ
  sinQ : ℚ → ℚ
  atan2Q : ℚ → ℚ → ℚ

/-- Trivial interpretation of `TrigOps`, used to evaluate concrete inputs. -/
def trigZero : TrigOps := { cosQ := fun _ => 0, sinQ := fun _ => 0, atan2Q := fun _ _ => 0 }

/-- Input frame construction and send decision, from `network.rs`
`Network::send_input` (lines 160-260).  Returns the 8-byte frame handed to
the channel (`none` when sending is suppressed).  The joystick-magnitude
test `jdist > 5.0` is stated on squared magnitudes (equivalent, both sides
nonnegative). -/
def sendInput (ops : TrigOps) (s : GameState) : Option (List ℤ) :=
  let dominated_by_playing :=
    s.phase = Phase.Playing ∨ s.phase = Phase.Dead ∨ s.phase = Phase.Countdown
  if ¬dominated_by_playing ∨ s.my_id = none then none
  else if s.controller_attached then none
  else
    let zoom := s.cam_zoom
    let mx0 := (s.mouse_x - s.screen_w / 2) / zoom + s.cam_x
    let my0 := (s.mouse_y - s.screen_h / 2) / zoom + s.cam_y
    let mobileAim : Option (ℚ × ℚ) :=
      if s.is_mobile then
        let jdx := s.mouse_x - s.screen_w / 2
        let jdy := s.mouse_y - s.screen_h / 2
        if jdx * jdx + jdy * jdy > 5 * 5 then
          match s.my_id with
          | some myId =>
            match alGet myId s.players with
            | some me =>
              if me.a then
                let aim_angle := ops.atan2Q jdy jdx
                let orbit_x := me.x + ops.cosQ aim_angle * 360
                let orbit_y := me.y + ops.sinQ aim_angle * 360
                let afterPlayers := s.players.foldl
                  (fun (acc : ℚ × Option (ℚ × ℚ)) kv =>
                    if some kv.1 = s.my_id ∨ kv.2.a = false then acc
                    else
                      let dx := kv.2.x - orbit_x
                      let dy := kv.2.y - orbit_y
                      let d2 := dx * dx + dy * dy
                      if d2 ≤ acc.1 then (d2, some (kv.2.x, kv.2.y)) else acc)
                  (150 * 150, none)
                let afterMobs := s.mobs.foldl
                  (fun (acc : ℚ × Option (ℚ × ℚ)) kv =>
                    if kv.2.a = false then acc
                    else
                      let dx := kv.2.x - orbit_x
                      let dy := kv.2.y - orbit_y
                      let d2 := dx * dx + dy * dy
                      if d2 ≤ acc.1 then (d2, some (kv.2.x, kv.2.y)) else acc)
                  afterPlayers
                afterMobs.2
              else none
            | none => none
          | none => none
        else none
      else none
    let mx1 := match mobileAim with | some txy => txy.1 | none => mx0
    let my1 := match mobileAim with | some txy => txy.2 | none => my0
    let thresh := min s.screen_w s.screen_h / (8 * zoom)
    let mxmy : ℚ × ℚ :=
      if s.shift_pressed then
        match s.hyperspace_locked_r with
        | some locked_r =>
          match s.my_id with
          | some myId =>
            match alGet myId s.players with
            | some me => (me.x + ops.cosQ locked_r * 1000, me.y + ops.sinQ locked_r * 1000)
            | none => (mx1, my1)
          | none => (mx1, my1)
        | none => (mx1, my1)
      else (mx1, my1)
    let mx_i := clampI16 (roundQ mxmy.1)
    let my_i := clampI16 (roundQ mxmy.2)
    let thresh_i := min 65535 (max 0 (roundQ thresh))
    let flags : ℤ :=
      (if s.firing then 1 else 0) + (if s.boosting then 2 else 0)
        + (if s.ability_pressed then 4 else 0)
    some [1,
          (mx_i.emod 65536) / 256, mx_i.emod 256,
          (my_i.emod 65536) / 256, my_i.emod 256,
          flags,
          thresh_i / 256, thresh_i.emod 256]

/-- Fixed reconnect delay in milliseconds, from `constants.rs` line 11. -/
def RECONNECT_DELAY : ℕ := 2000

/-- Model of a `gloo_timers::callback::Timeout` handle: `new` schedules a
callback after the given delay and returns a live handle; per the
gloo-timers contract, dropping the handle cancels the scheduled callback
(only `forget`ting the handle lets it fire).  The handle records whether the
callback will still fire. -/
structure TimerHandle where
  delayMs : ℕ
  live : Bool
  deriving DecidableEq, Repr

/-- Timer creation (`Timeout::new`). -/
def timeoutNew (delayMs : ℕ) : TimerHandle := { delayMs := delayMs, live := true }

/-- Handle drop: the scheduled callback is cancelled and never fires. -/
def dropTimeout (h : TimerHandle) : TimerHandle := { h with live := false }

/-- Connection-level state seen by the channel close handler: the
`connected` flag of the shared state plus the reconnect timers created so
far. -/
structure ConnState where
  connected : Bool
  pending : List TimerHandle
  deriving DecidableEq, Repr

/-- Channel close handler, from `network.rs` `Network::connect` lines
114-121: sets `connected := false`, then creates the reconnect `Timeout`
with `RECONNECT_DELAY` — and immediately discards the returned handle
(`let _ = ...`), which drops and therefore cancels it.  (Contrast
`controller.rs` line 470, which keeps its timer alive with
`std::mem::forget`.) -/
def onChannelClose (st : ConnState) : ConnState :=
  let st1 := { st with connected := false }
  let handle := dropTimeout (timeoutNew RECONNECT_DELAY)
  { st1 with pending := st1.pending ++ [handle] }

/-- Reconnect attempts that will actually fire: the live pending timers. -/
def reconnectsThatWillFire (st : ConnState) : List TimerHandle :=
  st.pending.filter (fun h => h.live)

/-! Lemmas about the association-list embedding of `HashMap`. -/

lemma alGet_insert_self {α : Type} (k : String) (v : α) (m : AList α) :
    alGet k (alInsert k v m) = some v := by
  simp [alGet, alInsert, List.find?]

lemma find?_key_filter_ne {α : Type} (m : List (String × α)) (k k2 : String) (h : k2 ≠ k) :
    (m.filter (fun kv => !(kv.1 == k2))).find? (fun kv => kv.1 == k)
      = m.find? (fun kv => kv.1 == k) := by
  induction m with
  | nil => rfl
  | cons hd tl ih =>
    have hks : ¬(k = k2) := fun hh => h hh.symm
    by_cases h1 : hd.1 = k2 <;> by_cases h2 : hd.1 = k
    · exact absurd (h1.symm.trans h2) h
    · have hb : (hd.1 == k) = false := beq_eq_false_iff_ne.mpr h2
      have hb2 : (k2 == k) = false := beq_eq_false_iff_ne.mpr h
      simp [List.filter_cons, List.find?, h1, hb, hb2, ih, beq_iff_eq, hks]
    · simp [List.filter_cons, List.find?, h1, h2, ih, beq_iff_eq, hks]
    · have hb : (hd.1 == k) = false := beq_eq_false_iff_ne.mpr h2
      simp [List.filter_cons, List.find?, h1, hb, ih, beq_iff_eq, hks]

lemma alGet_insert_ne {α : Type} (k k2 : String) (v : α) (m : AList α) (h : k2 ≠ k) :
    alGet k (alInsert k2 v m) = alGet k m := by
  have hk2 : (k2 == k) = false := by
    simp only [beq_eq_false_iff_ne, ne_eq]
    exact h
  simp [alGet, alInsert, List.find?, hk2, find?_key_filter_ne m k k2 h]

lemma alGet_foldl_of_forall_ne {α β : Type} (key : β → String) (f : β → α)
    (l : List β) (init : AList α) (k : String) (h : ∀ x ∈ l, key x ≠ k) :
    alGet k (l.foldl (fun acc x => alInsert (key x) (f x) acc) init) = alGet k init := by
  induction l generalizing init with
  | nil => rfl
  | cons hd tl ih =>
    rw [List.foldl_cons]
    exact (ih _ (fun x hx => h x (List.mem_cons_of_mem _ hx))).trans
      (alGet_insert_ne k (key hd) (f hd) init (h hd (List.mem_cons_self _ _)))

lemma alGet_foldl_of_mem {α β : Type} (key : β → String) (f : β → α)
    (l : List β) (init : AList α) (x : β) :
    (l.map key).Nodup → x ∈ l →
      alGet (key x) (l.foldl (fun acc y => alInsert (key y) (f y) acc) init) = some (f x) := by
  induction l generalizing init with
  | nil => intro _ hx; cases hx
  | cons hd tl ih =>
    intro hn hx
    rw [List.map_cons, List.nodup_cons] at hn
    rw [List.foldl_cons]
    rcases List.mem_cons.mp hx with rfl | hmem
    · rw [alGet_foldl_of_forall_ne key f tl _ (key x)
        (fun y hy hEq => hn.1 (hEq ▸ List.mem_map_of_mem key hy)), alGet_insert_self]
    · exact ih _ hn.2 hmem

/-! Field bookkeeping for `applySnapshot` and `updateCameraPhase`. -/

lemma applySnapshot_players (s : GameState) (gs : GameStateMsg) (now : ℚ) :
    (applySnapshot s gs now).players
      = gs.p.foldl (fun acc p => alInsert p.id (mergePlayer s.players p) acc) alEmpty := rfl

lemma applySnapshot_mobs (s : GameState) (gs : GameStateMsg) (now : ℚ) :
    (applySnapshot s gs now).mobs
      = gs.m.foldl (fun acc m => alInsert m.id (mergeMob s.mobs m) acc) alEmpty := rfl

lemma applySnapshot_interp_last_update (s : GameState) (gs : GameStateMsg) (now : ℚ) :
    (applySnapshot s gs now).interp_last_update = now := rfl

lemma applySnapshot_interp_interval (s : GameState) (gs : GameStateMsg) (now : ℚ) :
    (applySnapshot s gs now).interp_interval
      = if s.interp_last_update > 0 then
          if now - s.interp_last_update > 10 ∧ now - s.interp_last_update < 200 then
            s.interp_interval * 0.8 + (now - s.interp_last_update) * 0.2
          else s.interp_interval
        else s.interp_interval := rfl

lemma applySnapshot_phase (s : GameState) (gs : GameStateMsg) (now : ℚ) :
    (applySnapshot s gs now).phase = s.phase := rfl

lemma applySnapshot_death_info (s : GameState) (gs : GameStateMsg) (now : ℚ) :
    (applySnapshot s gs now).death_info = s.death_info := rfl

lemma applySnapshot_cam_x (s : GameState) (gs : GameStateMsg) (now : ℚ) :
    (applySnapshot s gs now).cam_x = s.cam_x := rfl

lemma applySnapshot_cam_y (s : GameState) (gs : GameStateMsg) (now : ℚ) :
    (applySnapshot s gs now).cam_y = s.cam_y := rfl

lemma applySnapshot_my_id (s : GameState) (gs : GameStateMsg) (now : ℚ) :
    (applySnapshot s gs now).my_id = s.my_id := rfl

lemma updateCameraPhase_of_none (s : GameState) (h : s.my_id = none) :
    updateCameraPhase s = s := by
  unfold updateCameraPhase
  rw [h]

lemma updateCameraPhase_of_absent (s : GameState) (myId : String)
    (h : s.my_id = some myId) (h2 : alGet myId s.players = none) :
    updateCameraPhase s = s := by
  simp only [updateCameraPhase, h, h2]

lemma updateCameraPhase_const (s : GameState) :
    (updateCameraPhase s).players = s.players ∧
    (updateCameraPhase s).mobs = s.mobs ∧
    (updateCameraPhase s).interp_last_update = s.interp_last_update ∧
    (updateCameraPhase s).interp_interval = s.interp_interval ∧
    (updateCameraPhase s).my_id = s.my_id := by
  rcases hmy : s.my_id with _ | myId
  · simp [updateCameraPhase, hmy]
  · rcases hget : alGet myId s.players with _ | me
    · simp [updateCameraPhase, hmy, hget]
    · by_cases hc : s.controller_attached <;>
        by_cases h1 : me.a = false ∧ s.phase = Phase.Playing <;>
        by_cases h2 : me.a = true ∧ s.phase = Phase.Dead <;>
        simp [updateCameraPhase, hmy, hget, hc, h1, h2]

/-! Concrete fixtures used to evaluate the theorems on specific inputs. -/

/-- Empty snapshot message. -/
def gsEmpty : GameStateMsg :=
  { p := [], pr := [], m := [], a := [], pk := [], tick := 0, mp := 0, tl := 0,
    trs := 0, tbs := 0, hz := [] }

/-- State that has already applied at least one snapshot (timestamp 100 ms). -/
def st6 : GameState := { GameState.new with interp_last_update := 100 }

/-- State sitting in the match lobby of a team-mode session. -/
def st4 : GameState :=
  { GameState.new with phase := Phase.MatchLobby, session_id := some "s1",
                       my_id := some "me", game_mode := GameMode.TDM }

/-- C6: on every snapshot application after the first, the elapsed sample is
folded into the smoothed interval exactly when it lies strictly inside the
10-200 ms window (`smoothed := smoothed * 0.8 + elapsed * 0.2`), the
interval is left unchanged otherwise, and the last-update timestamp is set
to `now` in both cases. -/
theorem c6_interval_smoothing (s : GameState) (gs : GameStateMsg) (now : ℚ)
    (hfirst : 0 < s.interp_last_update) :
    (handleState s gs now).interp_last_update = now ∧
    (10 < now - s.interp_last_update → now - s.interp_last_update < 200 →
      (handleState s gs now).interp_interval
        = s.interp_interval * 0.8 + (now - s.interp_last_update) * 0.2) ∧
    (¬(10 < now - s.interp_last_update ∧ now - s.interp_last_update < 200) →
      (handleState s gs now).interp_interval = s.interp_interval) := by
  have hconst := updateCameraPhase_const (applySnapshot s gs now)
  unfold handleState
  refine ⟨?_, ?_, ?_⟩
  · rw [hconst.2.2.1, applySnapshot_interp_last_update]
  · intro hlo hhi
    rw [hconst.2.2.2.1, applySnapshot_interp_interval, if_pos hfirst, if_pos ⟨hlo, hhi⟩]
  · intro hw
    rw [hconst.2.2.2.1, applySnapshot_interp_interval, if_pos hfirst, if_neg hw]

/-- Witness for C6: a snapshot arriving 50 ms after the previous one moves
the interval estimate from 33.33 to `33.33 * 0.8 + 50 * 0.2`. -/
theorem c6_interval_smoothing_witness :
    (handleState st6 gsEmpty 150).interp_last_update = 150 ∧
    (handleState st6 gsEmpty 150).interp_interval = 33.33 * 0.8 + 50 * 0.2 := by
  have h := c6_interval_smoothing st6 gsEmpty 150 (by norm_num [st6, GameState.new])
  refine ⟨h.1, ?_⟩
  have h2 := h.2.1 (by norm_num [st6, GameState.new]) (by norm_num [st6, GameState.new])
  rw [h2]
  norm_num [st6, GameState.new]

/-- C4: a `match_phase` message with phase 1 (countdown) always moves the
phase to `Countdown`, whatever the current phase; a `match_phase` message
with phase 0 (lobby) whose mode decodes to free-for-all moves the phase to
`Lobby` and clears both the session id and the local player id. -/
theorem c4_phase_transitions (s : GameState) (mp : MatchPhaseMsg) :
    (mp.phase = 1 → ((handleMatchPhase s mp).1).phase = Phase.Countdown) ∧
    (mp.phase = 0 → GameMode.from_i32 mp.mode = GameMode.FFA →
      ((handleMatchPhase s mp).1).phase = Phase.Lobby ∧
      ((handleMatchPhase s mp).1).session_id = none ∧
      ((handleMatchPhase s mp).1).my_id = none) := by
  constructor
  · intro h1
    norm_num [handleMatchPhase, h1]
  · intro h0 hffa
    norm_num [handleMatchPhase, h0, hffa]

/-- Witness for C4: from the team-mode match lobby, countdown is entered on
phase 1, and a phase-0 message with FFA mode returns to the main lobby with
session and player identity cleared. -/
theorem c4_phase_transitions_witness :
    (handleMatchPhase st4 { phase := 1, mode := 1, time_left := 0, countdown := 5 }).1.phase
      = Phase.Countdown ∧
    ((handleMatchPhase st4 { phase := 0, mode := 0, time_left := 0, countdown := 0 }).1.phase
      = Phase.Lobby ∧
     (handleMatchPhase st4 { phase := 0, mode := 0, time_left := 0, countdown := 0 }).1.session_id
      = none ∧
     (handleMatchPhase st4 { phase := 0, mode := 0, time_left := 0, countdown := 0 }).1.my_id
      = none) :=
  ⟨(c4_phase_transitions st4 _).1 rfl, (c4_phase_transitions st4 _).2 rfl (by decide)⟩

/-- C5 (code bug): on channel close the connected flag is cleared
immediately and a reconnect `Timeout` with the fixed 2000 ms delay is
created — but its handle is immediately dropped by the `let _ = ...` binding
in `network.rs` line 118, which cancels the timer, so the reconnect callback
never fires (the pending list holds exactly one dead timer and the set of
reconnect attempts that will fire is empty). -/
theorem c5_close_cancels_reconnect :
    (onChannelClose { connected := true, pending := [] }).connected = false ∧
    (onChannelClose { connected := true, pending := [] }).pending
      = [{ delayMs := RECONNECT_DELAY, live := false }] ∧
    reconnectsThatWillFire (onChannelClose { connected := true, pending := [] }) = [] :=
  ⟨rfl, rfl, rfl⟩

/-! Component lemmas for the velocity merge. -/

lemma mergePlayer_vx_of_prev (prev : AList PlayerState) (p q : PlayerState)
    (hvx : p.vx = none) (hq : alGet p.id prev = some q) :
    (mergePlayer prev p).vx = q.vx := by
  simp [mergePlayer, hvx, hq]

lemma mergePlayer_vy_of_prev (prev : AList PlayerState) (p q : PlayerState)
    (hvy : p.vy = none) (hq : alGet p.id prev = some q) :
    (mergePlayer prev p).vy = q.vy := by
  simp [mergePlayer, hvy, hq]

lemma mergePlayer_of_prev_none (prev : AList PlayerState) (p : PlayerState)
    (hq : alGet p.id prev = none) : mergePlayer prev p = p := by
  simp [mergePlayer, hq]

lemma mergeMob_vx_of_prev (prev : AList MobState) (m q : MobState)
    (hvx : m.vx = none) (hq : alGet m.id prev = some q) :
    (mergeMob prev m).vx = q.vx := by
  simp [mergeMob, hvx, hq]

lemma mergeMob_vy_of_prev (prev : AList MobState) (m q : MobState)
    (hvy : m.vy = none) (hq : alGet m.id prev = some q) :
    (mergeMob prev m).vy = q.vy := by
  simp [mergeMob, hvy, hq]

lemma mergeMob_of_prev_none (prev : AList MobState) (m : MobState)
    (hq : alGet m.id prev = none) : mergeMob prev m = m := by
  simp [mergeMob, hq]

/-- C1: after applying a snapshot, every incoming player or mob record is
present in the merged collection as its merge with the immediately preceding
collection; a record whose `vx` (resp. `vy`) was omitted carries exactly the
velocity component stored for the same id in the collection that was current
just before the apply, and carries effective velocity zero when the id had
no record there. -/
theorem c1_velocity_backfill (s : GameState) (gs : GameStateMsg) (now : ℚ) :
    ((gs.p.map PlayerState.id).Nodup → ∀ p ∈ gs.p,
      alGet p.id (handleState s gs now).players = some (mergePlayer s.players p) ∧
      (p.vx = none →
        (∀ q, alGet p.id s.players = some q → (mergePlayer s.players p).vx = q.vx) ∧
        (alGet p.id s.players = none → effVel (mergePlayer s.players p).vx = 0)) ∧
      (p.vy = none →
        (∀ q, alGet p.id s.players = some q → (mergePlayer s.players p).vy = q.vy) ∧
        (alGet p.id s.players = none → effVel (mergePlayer s.players p).vy = 0))) ∧
    ((gs.m.map MobState.id).Nodup → ∀ mb ∈ gs.m,
      alGet mb.id (handleState s gs now).mobs = some (mergeMob s.mobs mb) ∧
      (mb.vx = none →
        (∀ q, alGet mb.id s.mobs = some q → (mergeMob s.mobs mb).vx = q.vx) ∧
        (alGet mb.id s.mobs = none → effVel (mergeMob s.mobs mb).vx = 0)) ∧
      (mb.vy = none →
        (∀ q, alGet mb.id s.mobs = some q → (mergeMob s.mobs mb).vy = q.vy) ∧
        (alGet mb.id s.mobs = none → effVel (mergeMob s.mobs mb).vy = 0))) := by
  constructor
  · intro hn p hp
    refine ⟨?_, ?_, ?_⟩
    · rw [handleState, (updateCameraPhase_const _).1, applySnapshot_players]
      exact alGet_foldl_of_mem PlayerState.id (mergePlayer s.players) gs.p alEmpty p hn hp
    · intro hvx
      refine ⟨fun q hq => mergePlayer_vx_of_prev s.players p q hvx hq, fun hq => ?_⟩
      rw [mergePlayer_of_prev_none s.players p hq]
      simp [effVel, hvx]
    · intro hvy
      refine ⟨fun q hq => mergePlayer_vy_of_prev s.players p q hvy hq, fun hq => ?_⟩
      rw [mergePlayer_of_prev_none s.players p hq]
      simp [effVel, hvy]
  · intro hn mb hmb
    refine ⟨?_, ?_, ?_⟩
    · rw [handleState, (updateCameraPhase_const _).2.1, applySnapshot_mobs]
      exact alGet_foldl_of_mem MobState.id (mergeMob s.mobs) gs.m alEmpty mb hn hmb
    · intro hvx
      refine ⟨fun q hq => mergeMob_vx_of_prev s.mobs mb q hvx hq, fun hq => ?_⟩
      rw [mergeMob_of_prev_none s.mobs mb hq]
      simp [effVel, hvx]
    · intro hvy
      refine ⟨fun q hq => mergeMob_vy_of_prev s.mobs mb q hvy hq, fun hq => ?_⟩
      rw [mergeMob_of_prev_none s.mobs mb hq]
      simp [effVel, hvy]

/-- Player record used by the concrete backfill example (previous tick,
explicit velocity). -/
def pPrevA : PlayerState :=
  { id := "a", n := "A", x := 0, y := 0, r := 0, vx := some 5, vy := some (-2),
    hp := 100, mhp := 100, s := 0, sc := 0, a := true, b := false, tm := 0,
    cl := 0, acd := 0, aact := false, sp := false, sk := "", tr := "" }

/-- Incoming record for the same id with both velocity components omitted
and the position advanced by 10 units. -/
def pNewA : PlayerState := { pPrevA with x := 10, vx := none, vy := none }

/-- State whose current player collection holds the previous record of id a. -/
def st1 : GameState := { GameState.new with players := [("a", pPrevA)] }

/-- Snapshot carrying only the delta-compressed record of id a. -/
def gs1 : GameStateMsg := { gsEmpty with p := [pNewA] }

/-- Witness for C1: the merged record for id a carries the previous
velocity (5, -2) while its position is the new one. -/
theorem c1_velocity_backfill_witness :
    alGet "a" (handleState st1 gs1 50).players = some (mergePlayer st1.players pNewA) ∧
    (mergePlayer st1.players pNewA).vx = some 5 ∧
    (mergePlayer st1.players pNewA).vy = some (-2) ∧
    (mergePlayer st1.players pNewA).x = 10 := by
  have h := (c1_velocity_backfill st1 gs1 50).1 (by decide) pNewA (by simp [gs1, gsEmpty])
  refine ⟨by simpa [pNewA, pPrevA] using h.1, ?_, ?_, by decide⟩
  · have h2 := (h.2.1 (by decide)).1 pPrevA (by decide)
    rw [h2]
    decide
  · have h2 := (h.2.2 (by decide)).1 pPrevA (by decide)
    rw [h2]
    decide

/-- C10: if the local player id is unset, or the incoming snapshot has no
player record with that id, applying the snapshot leaves the phase, the
death-cause info and the camera position unchanged. -/
theorem c10_snapshot_without_local_player (s : GameState) (gs : GameStateMsg) (now : ℚ)
    (h : s.my_id = none ∨ ∀ p ∈ gs.p, some p.id ≠ s.my_id) :
    (handleState s gs now).phase = s.phase ∧
    (handleState s gs now).death_info = s.death_info ∧
    (handleState s gs now).cam_x = s.cam_x ∧
    (handleState s gs now).cam_y = s.cam_y := by
  have heq : updateCameraPhase (applySnapshot s gs now) = applySnapshot s gs now := by
    rcases h with h | h
    · exact updateCameraPhase_of_none _ (by rw [applySnapshot_my_id, h])
    · rcases hmy : s.my_id with _ | myId
      · exact updateCameraPhase_of_none _ (by rw [applySnapshot_my_id, hmy])
      · refine updateCameraPhase_of_absent _ myId (by rw [applySnapshot_my_id, hmy]) ?_
        rw [applySnapshot_players]
        refine (alGet_foldl_of_forall_ne PlayerState.id (mergePlayer s.players)
          gs.p alEmpty myId ?_).trans rfl
        intro p hp hpid
        exact h p hp (by rw [hpid, hmy])
  unfold handleState
  rw [heq]
  exact ⟨applySnapshot_phase s gs now, applySnapshot_death_info s gs now,
         applySnapshot_cam_x s gs now, applySnapshot_cam_y s gs now⟩

/-- Playing state belonging to an absent local player, with a camera away
from the origin and stale death info. -/
def st10 : GameState :=
  { GameState.new with my_id := some "me", phase := Phase.Playing,
                       cam_x := 7, cam_y := 8,
                       death_info := some { killer_name := "k" } }

/-- Snapshot whose only player record has a different id than the local one. -/
def gs10 : GameStateMsg := { gsEmpty with p := [pPrevA] }

/-- Witness for C10: a snapshot without the local player's record leaves
phase, death info and camera untouched. -/
theorem c10_snapshot_without_local_player_witness :
    (handleState st10 gs10 50).phase = Phase.Playing ∧
    (handleState st10 gs10 50).death_info = some { killer_name := "k" } ∧
    (handleState st10 gs10 50).cam_x = 7 ∧
    (handleState st10 gs10 50).cam_y = 8 := by
  have h := c10_snapshot_without_local_player st10 gs10 50 (Or.inr (by decide))
  exact ⟨h.1.trans (by decide), h.2.1.trans (by decide),
         h.2.2.1.trans (by decide), h.2.2.2.trans (by decide)⟩

/-! Invariant infrastructure for the interval estimate. -/

lemma handleState_interval_bounds (s : GameState) (gs : GameStateMsg) (now : ℚ)
    (h1 : 10 < s.interp_interval) (h2 : s.interp_interval < 200) :
    10 < (handleState s gs now).interp_interval ∧
    (handleState s gs now).interp_interval < 200 := by
  unfold handleState
  rw [(updateCameraPhase_const _).2.2.2.1, applySnapshot_interp_interval]
  split_ifs with ha hb
  · obtain ⟨hlo, hhi⟩ := hb
    constructor <;> linarith
  · exact ⟨h1, h2⟩
  · exact ⟨h1, h2⟩

lemma foldState_interval_bounds (steps : List (GameStateMsg × ℚ)) : ∀ (s : GameState),
    10 < s.interp_interval → s.interp_interval < 200 →
    10 < (steps.foldl (fun st x => handleState st x.1 x.2) s).interp_interval ∧
    (steps.foldl (fun st x => handleState st x.1 x.2) s).interp_interval < 200 := by
  induction steps with
  | nil => exact fun s h1 h2 => ⟨h1, h2⟩
  | cons hd tl ih =>
    intro s h1 h2
    rw [List.foldl_cons]
    have h3 := handleState_interval_bounds s hd.1 hd.2 h1 h2
    exact ih _ h3.1 h3.2

/-- C9: the smoothed interval estimate starts at 33.33 ms and stays strictly
between 10 ms and 200 ms under any sequence of snapshot applications, so it
is never zero and the renderer's interpolation factor always takes the
division branch of its guard. -/
theorem c9_interval_invariant (steps : List (GameStateMsg × ℚ)) :
    GameState.new.interp_interval = 33.33 ∧
    10 < (steps.foldl (fun st x => handleState st x.1 x.2) GameState.new).interp_interval ∧
    (steps.foldl (fun st x => handleState st x.1 x.2) GameState.new).interp_interval < 200 ∧
    (steps.foldl (fun st x => handleState st x.1 x.2) GameState.new).interp_interval ≠ 0 ∧
    ∀ now : ℚ,
      interpFactor (steps.foldl (fun st x => handleState st x.1 x.2) GameState.new) now
        = max (min ((now - (steps.foldl (fun st x => handleState st x.1 x.2)
              GameState.new).interp_last_update)
            / (steps.foldl (fun st x => handleState st x.1 x.2)
              GameState.new).interp_interval) 1) 0 := by
  have h := foldState_interval_bounds steps GameState.new
    (by norm_num [GameState.new]) (by norm_num [GameState.new])
  have hpos : (0 : ℚ)
      < (steps.foldl (fun st x => handleState st x.1 x.2) GameState.new).interp_interval := by
    linarith [h.1]
  exact ⟨rfl, h.1, h.2, hpos.ne', fun now => by rw [interpFactor, if_pos hpos]⟩

/-! Lemmas about the angle normalization inside `lerp_angle`. -/

lemma normDown_eq_self (d : ℚ) (h : d ≤ PI) : normDown d = d := by
  rw [normDown, if_neg (not_lt.mpr h)]

lemma normUp_eq_self (d : ℚ) (h : -PI ≤ d) : normUp d = d := by
  rw [normUp, if_neg (not_lt.mpr h)]

lemma normDown_shift (d : ℚ) : ∃ k : ℤ, normDown d = d - 2 * PI * k := by
  induction d using normDown.induct with
  | case1 d h ih =>
    obtain ⟨k, hk⟩ := ih
    refine ⟨k + 1, ?_⟩
    rw [normDown, if_pos h, hk]
    push_cast
    ring
  | case2 d h =>
    refine ⟨0, ?_⟩
    rw [normDown, if_neg h]
    push_cast
    ring

lemma normUp_shift (d : ℚ) : ∃ k : ℤ, normUp d = d + 2 * PI * k := by
  induction d using normUp.induct with
  | case1 d h ih =>
    obtain ⟨k, hk⟩ := ih
    refine ⟨k + 1, ?_⟩
    rw [normUp, if_pos h, hk]
    push_cast
    ring
  | case2 d h =>
    refine ⟨0, ?_⟩
    rw [normUp, if_neg h]
    push_cast
    ring

lemma lerp_angle_zero (a b : ℚ) : lerp_angle a b 0 = a := by
  simp [lerp_angle]

lemma lerp_angle_one_shift (a b : ℚ) : ∃ k : ℤ, lerp_angle a b 1 = b - 2 * PI * k := by
  obtain ⟨k1, h1⟩ := normDown_shift (b - a)
  obtain ⟨k2, h2⟩ := normUp_shift (normDown (b - a))
  refine ⟨k1 - k2, ?_⟩
  simp only [lerp_angle]
  rw [h2, h1]
  push_cast
  ring

lemma lerp_angle_one_of_inrange (a b : ℚ) (hlo : -PI ≤ b - a) (hhi : b - a ≤ PI) :
    lerp_angle a b 1 = b := by
  simp only [lerp_angle]
  rw [normDown_eq_self _ hhi, normUp_eq_self _ hlo]
  ring

/-- C2 (amended): for an entity with both a previous and a current record,
the interpolated pose at factor 0 equals the previous position and rotation
exactly, the interpolated position at factor 1 equals the current position
exactly, and the interpolated rotation at factor 1 equals the current
rotation up to an integer multiple of 2*PI — exactly equal whenever the
rotation difference lies within [-PI, PI]. -/
theorem c2_pose_endpoints (prevP curP : PlayerState) (prevM curM : MobState) :
    interpPlayerPose prevP curP 0 = (prevP.x, prevP.y, prevP.r) ∧
    interpMobPose prevM curM 0 = (prevM.x, prevM.y, prevM.r) ∧
    (interpPlayerPose prevP curP 1).1 = curP.x ∧
    (interpPlayerPose prevP curP 1).2.1 = curP.y ∧
    (interpMobPose prevM curM 1).1 = curM.x ∧
    (interpMobPose prevM curM 1).2.1 = curM.y ∧
    (∃ k : ℤ, (interpPlayerPose prevP curP 1).2.2 = curP.r - 2 * PI * k) ∧
    (∃ k : ℤ, (interpMobPose prevM curM 1).2.2 = curM.r - 2 * PI * k) ∧
    (-PI ≤ curP.r - prevP.r → curP.r - prevP.r ≤ PI →
      (interpPlayerPose prevP curP 1).2.2 = curP.r) ∧
    (-PI ≤ curM.r - prevM.r → curM.r - prevM.r ≤ PI →
      (interpMobPose prevM curM 1).2.2 = curM.r) := by
  refine ⟨?_, ?_, ?_, ?_, ?_, ?_, ?_, ?_, ?_, ?_⟩
  · simp [interpPlayerPose, lerp_angle_zero]
  · simp [interpMobPose, lerp_angle_zero]
  · simp [interpPlayerPose]
  · simp [interpPlayerPose]
  · simp [interpMobPose]
  · simp [interpMobPose]
  · simpa [interpPlayerPose] using lerp_angle_one_shift prevP.r curP.r
  · simpa [interpMobPose] using lerp_angle_one_shift prevM.r curM.r
  · intro hlo hhi
    simpa [interpPlayerPose] using lerp_angle_one_of_inrange prevP.r curP.r hlo hhi
  · intro hlo hhi
    simpa [interpMobPose] using lerp_angle_one_of_inrange prevM.r curM.r hlo hhi

/-- Player record rotated to 3 radians. -/
def pR3 : PlayerState := { pPrevA with id := "c", r := 3 }

/-- Player record for the same id rotated to -3 radians. -/
def pRm3 : PlayerState := { pPrevA with id := "c", r := -3 }

/-- Counterexample for C2 as stated: interpolating from rotation 3 to
rotation -3 (angular difference -6, outside [-PI, PI]) gives a pose at
factor 1 whose rotation is 2*PI - 3, not the current record's -3: the
factor-1 pose does not equal the current pose exactly. -/
theorem c2_pose_endpoints_counterexample :
    (interpPlayerPose pR3 pRm3 1).2.2 ≠ pRm3.r := by
  have h1 : normDown (-6 : ℚ) = -6 := normDown_eq_self _ (by norm_num [PI])
  have h2 : normUp (-6 : ℚ) = -6 + 2 * PI := by
    rw [normUp, if_pos (by norm_num [PI])]
    exact normUp_eq_self _ (by norm_num [PI])
  simp only [interpPlayerPose, lerp_angle, pR3, pRm3, pPrevA]
  rw [show ((-3 : ℚ) - 3) = -6 by norm_num, h1, h2]
  norm_num [PI]

/-- Mob record at rotation 1. -/
def mA : MobState :=
  { id := "m1", x := 0, y := 0, r := 1, vx := some 1, vy := none,
    hp := 50, mhp := 50, s := 3, a := true }

/-- Mob record for the same id at rotation 2 (difference inside [-PI, PI]). -/
def mB : MobState := { mA with x := 4, r := 2 }

/-- Witness for C2 (amended): on concrete records whose rotation difference
lies inside [-PI, PI], the factor-0 pose is the previous one and the
factor-1 rotation is exactly the current one. -/
theorem c2_pose_endpoints_witness :
    interpPlayerPose pPrevA pNewA 0 = (pPrevA.x, pPrevA.y, pPrevA.r) ∧
    (interpPlayerPose pPrevA pNewA 1).2.2 = pNewA.r ∧
    (interpMobPose mA mB 1).2.2 = mB.r := by
  obtain ⟨hp0, hm0, hpx, hpy, hmx, hmy, hks, hkm, hpin, hmin⟩ :=
    c2_pose_endpoints pPrevA pNewA mA mB
  exact ⟨hp0,
         hpin (by norm_num [pPrevA, pNewA, PI]) (by norm_num [pPrevA, pNewA, PI]),
         hmin (by norm_num [mA, mB, PI]) (by norm_num [mA, mB, PI])⟩

/-! Lemmas about the acquisition scan. -/

lemma scanFold_stays_some (ox oy : ℚ) (l : List Enemy) :
    ∀ acc : Option Enemy × ℚ, acc.1.isSome →
      ((l.foldl (scanStep ox oy) acc).1).isSome := by
  induction l with
  | nil => exact fun acc h => h
  | cons e tl ih =>
    intro acc h
    rw [List.foldl_cons]
    apply ih
    unfold scanStep
    split_ifs
    · rfl
    · exact h

lemma scanFold_of_all_far (ox oy : ℚ) (l : List Enemy) :
    ∀ acc : Option Enemy × ℚ, (∀ e ∈ l, ¬ dist2 ox oy e ≤ acc.2) →
      l.foldl (scanStep ox oy) acc = acc := by
  induction l with
  | nil => exact fun acc _ => rfl
  | cons hd tl ih =>
    intro acc hfar
    rw [List.foldl_cons]
    have hstep : scanStep ox oy acc hd = acc := by
      unfold scanStep
      rw [if_neg (hfar hd (List.mem_cons_self _ _))]
    rw [hstep]
    exact ih acc (fun e he => hfar e (List.mem_cons_of_mem _ he))

lemma scanFold_exists (ox oy : ℚ) (l : List Enemy) :
    ∀ acc : Option Enemy × ℚ,
      (acc.1 = none → AIM_DETECT_R * AIM_DETECT_R ≤ acc.2) →
      (∃ e ∈ l, dist2 ox oy e ≤ AIM_DETECT_R * AIM_DETECT_R) →
      ((l.foldl (scanStep ox oy) acc).1).isSome := by
  induction l with
  | nil =>
    intro acc _ hex
    obtain ⟨e, he, _⟩ := hex
    cases he
  | cons hd tl ih =>
    rintro ⟨oacc, dacc⟩ hinv hex
    obtain ⟨e, he, hine⟩ := hex
    rw [List.foldl_cons]
    rcases List.mem_cons.mp he with rfl | hetl
    · rcases oacc with _ | f
      · have hc : dist2 ox oy e ≤ dacc := le_trans hine (hinv rfl)
        have hs : (scanStep ox oy (none, dacc) e).1.isSome := by
          unfold scanStep
          rw [if_pos hc]
          rfl
        exact scanFold_stays_some ox oy tl _ hs
      · have hs : (scanStep ox oy (some f, dacc) e).1.isSome := by
          unfold scanStep
          split_ifs <;> rfl
        exact scanFold_stays_some ox oy tl _ hs
    · apply ih
      · intro hnone
        unfold scanStep at hnone ⊢
        split_ifs at hnone with hc
        rw [if_neg hc]
        exact hinv hnone
      · exact ⟨e, hetl, hine⟩

lemma scanFold_some_spec (ox oy : ℚ) (l : List Enemy) :
    ∀ acc : Option Enemy × ℚ,
      (∀ f, acc.1 = some f → dist2 ox oy f = acc.2) →
      ((l.foldl (scanStep ox oy) acc).2 ≤ acc.2) ∧
      (∀ e ∈ l, (l.foldl (scanStep ox oy) acc).2 ≤ dist2 ox oy e) ∧
      (∀ f, (l.foldl (scanStep ox oy) acc).1 = some f →
        (f ∈ l ∨ acc.1 = some f) ∧ dist2 ox oy f = (l.foldl (scanStep ox oy) acc).2) := by
  induction l with
  | nil =>
    intro acc hacc
    exact ⟨le_refl _, by simp, fun f hf => ⟨Or.inr hf, hacc f hf⟩⟩
  | cons e tl ih =>
    intro acc hacc
    rw [List.foldl_cons]
    by_cases hc : dist2 ox oy e ≤ acc.2
    · have hstep : scanStep ox oy acc e = (some e, dist2 ox oy e) := by
        unfold scanStep
        rw [if_pos hc]
      rw [hstep]
      have hacc2 : ∀ f, ((some e : Option Enemy), dist2 ox oy e).1 = some f →
          dist2 ox oy f = ((some e : Option Enemy), dist2 ox oy e).2 := by
        intro f hf
        cases hf
        rfl
      obtain ⟨hle, hall, hsome⟩ := ih (some e, dist2 ox oy e) hacc2
      refine ⟨le_trans hle hc, ?_, ?_⟩
      · intro g hg
        rcases List.mem_cons.mp hg with rfl | hgtl
        · exact hle
        · exact hall g hgtl
      · intro f hf
        obtain ⟨hmem, hd⟩ := hsome f hf
        refine ⟨?_, hd⟩
        rcases hmem with hmem | hmem
        · exact Or.inl (List.mem_cons_of_mem _ hmem)
        · cases hmem
          exact Or.inl (List.mem_cons_self _ _)
    · have hstep : scanStep ox oy acc e = acc := by
        unfold scanStep
        rw [if_neg hc]
      rw [hstep]
      obtain ⟨hle, hall, hsome⟩ := ih acc hacc
      refine ⟨hle, ?_, ?_⟩
      · intro g hg
        rcases List.mem_cons.mp hg with rfl | hgtl
        · exact le_trans hle (le_of_lt (lt_of_not_le hc))
        · exact hall g hgtl
      · intro f hf
        obtain ⟨hmem, hd⟩ := hsome f hf
        exact ⟨hmem.imp (List.mem_cons_of_mem _) id, hd⟩

/-- Projection relating the two scan accumulators: the controller scan is
the primary scan with the winning enemy flattened to id and position. -/
def scanProj (acc : Option Enemy × ℚ) : Option String × ℚ × ℚ × ℚ :=
  match acc.1 with
  | some e => (some e.id, e.x, e.y, acc.2)
  | none => (none, 0, 0, acc.2)

lemma ctrlScanStep_proj (ox oy : ℚ) (acc : Option Enemy × ℚ) (e : Enemy) :
    ctrlScanStep ox oy (scanProj acc) e = scanProj (scanStep ox oy acc e) := by
  rcases acc with ⟨oe, d⟩
  rcases oe with _ | f
  · unfold ctrlScanStep scanStep scanProj
    split_ifs <;> rfl
  · unfold ctrlScanStep scanStep scanProj
    split_ifs <;> rfl

lemma ctrlScanFold_proj (ox oy : ℚ) (l : List Enemy) :
    ∀ acc : Option Enemy × ℚ,
      l.foldl (ctrlScanStep ox oy) (scanProj acc) = scanProj (l.foldl (scanStep ox oy) acc) := by
  induction l with
  | nil => exact fun acc => rfl
  | cons e tl ih =>
    intro acc
    rw [List.foldl_cons, List.foldl_cons, ctrlScanStep_proj]
    exact ih _

lemma ctrlScan_eq (enemies : List Enemy) (ox oy : ℚ) :
    ctrlScan enemies ox oy = scanProj (scanBest enemies ox oy) := by
  unfold ctrlScan scanBest
  have hinit : ((none : Option String), (0 : ℚ), (0 : ℚ), AIM_DETECT_R * AIM_DETECT_R)
      = scanProj (none, AIM_DETECT_R * AIM_DETECT_R) := rfl
  rw [hinit, ctrlScanFold_proj]

lemma updateAimLock_rescan (enemies : List Enemy) (ox oy : ℚ) (aim : AimState)
    (h : ∀ tid, aim.target_id = some tid → stickyKeep enemies ox oy tid = none) :
    updateAimLock enemies ox oy aim
      = match scanBest enemies ox oy with
        | (some e, _) => { aim with target_id := some e.id, target_x := e.x, target_y := e.y }
        | (none, _) => { aim with target_id := none } := by
  have hkept : (match aim.target_id with
      | some tid => stickyKeep enemies ox oy tid
      | none => none) = (none : Option (ℚ × ℚ)) := by
    rcases hl : aim.target_id with _ | tid
    · rfl
    · exact h tid hl
  simp only [updateAimLock, hkept]

lemma ctrlUpdateLock_rescan (enemies : List Enemy) (ox oy : ℚ) (lockId0 : Option String)
    (h : ∀ tid, lockId0 = some tid → stickyKeep enemies ox oy tid = none) :
    ctrlUpdateLock enemies ox oy lockId0
      = match ctrlScan enemies ox oy with
        | (some tid, tx, ty, _) => (some tid, tx, ty, true)
        | (none, _, _, _) => (none, 0, 0, false) := by
  rcases lockId0 with _ | tid
  · rfl
  · have hs := h tid rfl
    simp only [ctrlUpdateLock, hs]

/-- C3: on both the primary aim-assist path and the remote-controller path,
if a locked id exists among the candidates and its current squared distance
to the orbit point is at most the squared detection radius, the lock stays
on that id — no candidate (in particular no strictly closer one) replaces
it. -/
theorem c3_sticky_lock (enemies : List Enemy) (ox oy : ℚ) (aim : AimState)
    (tid : String) (t : Enemy)
    (hlock : aim.target_id = some tid)
    (hfind : enemies.find? (fun (e : Enemy) => e.id == tid) = some t)
    (hin : dist2 ox oy t ≤ AIM_DETECT_R * AIM_DETECT_R) :
    (updateAimLock enemies ox oy aim).target_id = some tid ∧
    (ctrlUpdateLock enemies ox oy aim.target_id).1 = some tid := by
  constructor
  · simp [updateAimLock, hlock, stickyKeep, hfind, hin]
  · simp [ctrlUpdateLock, hlock, stickyKeep, hfind, hin]

/-- Locked candidate 100 units from the orbit point (within range). -/
def eX : Enemy := { id := "m_x", x := 100, y := 0 }

/-- Strictly closer rival candidate, 1 unit from the orbit point. -/
def eY : Enemy := { id := "p_y", x := 1, y := 0 }

/-- Aim state already locked on the farther candidate. -/
def aimX : AimState := { AimState.init with target_id := some "m_x" }

/-- Witness for C3: with the lock on a candidate 100 units away and a rival
1 unit away, both paths keep the lock on the original candidate. -/
theorem c3_sticky_lock_witness :
    (updateAimLock [eY, eX] 0 0 aimX).target_id = some "m_x" ∧
    (ctrlUpdateLock [eY, eX] 0 0 aimX.target_id).1 = some "m_x" :=
  c3_sticky_lock [eY, eX] 0 0 aimX "m_x" eX (by decide) (by decide)
    (by norm_num [dist2, eX, AIM_DETECT_R])

/-- C7: when the sticky check fails for the previously locked id (it is
absent from the candidate list — in particular every candidate comes from an
active record, so an inactive entity is never a candidate — or it is out of
detection range), the same tick either clears the lock (no candidate in
range) or acquires a candidate whose squared distance to the orbit point is
minimal among all candidates, on both the primary and the remote-controller
path. -/
theorem c7_lock_clear_and_reacquire (players : AList PlayerState) (mobs : AList MobState)
    (myId : String) (ox oy : ℚ) (aim : AimState)
    (hstick : ∀ tid, aim.target_id = some tid →
      stickyKeep (buildEnemies myId players mobs) ox oy tid = none) :
    (∀ e ∈ buildEnemies myId players mobs,
      (∃ kv ∈ players, kv.2.a = true ∧ kv.1 ≠ myId ∧
        e = { id := "p_" ++ kv.1, x := kv.2.x, y := kv.2.y }) ∨
      (∃ kv ∈ mobs, kv.2.a = true ∧
        e = { id := "m_" ++ kv.1, x := kv.2.x, y := kv.2.y })) ∧
    ((∀ e ∈ buildEnemies myId players mobs, ¬ inRange ox oy e) →
      (updateAimLock (buildEnemies myId players mobs) ox oy aim).target_id = none ∧
      (ctrlUpdateLock (buildEnemies myId players mobs) ox oy aim.target_id).1 = none) ∧
    ((∃ e ∈ buildEnemies myId players mobs, inRange ox oy e) →
      ∃ e ∈ buildEnemies myId players mobs, inRange ox oy e ∧
        (updateAimLock (buildEnemies myId players mobs) ox oy aim).target_id = some e.id ∧
        (ctrlUpdateLock (buildEnemies myId players mobs) ox oy aim.target_id).1 = some e.id ∧
        ∀ f ∈ buildEnemies myId players mobs, inRange ox oy f →
          dist2 ox oy e ≤ dist2 ox oy f) := by
  refine ⟨?_, ?_, ?_⟩
  · intro e he
    unfold buildEnemies at he
    rcases List.mem_append.mp he with h | h
    · obtain ⟨kv, hkv, hmap⟩ := List.mem_map.mp h
      have hf := List.mem_filter.mp hkv
      have hcond := hf.2
      simp only [Bool.and_eq_true, Bool.not_eq_true', beq_eq_false_iff_ne, ne_eq] at hcond
      exact Or.inl ⟨kv, hf.1, hcond.2, hcond.1, hmap.symm⟩
    · obtain ⟨kv, hkv, hmap⟩ := List.mem_map.mp h
      have hf := List.mem_filter.mp hkv
      exact Or.inr ⟨kv, hf.1, hf.2, hmap.symm⟩
  · intro hfar
    have hsb : scanBest (buildEnemies myId players mobs) ox oy
        = ((none : Option Enemy), AIM_DETECT_R * AIM_DETECT_R) :=
      scanFold_of_all_far ox oy (buildEnemies myId players mobs) _ (fun e he => hfar e he)
    constructor
    · rw [updateAimLock_rescan _ _ _ _ hstick, hsb]
    · rw [ctrlUpdateLock_rescan _ _ _ _ hstick, ctrlScan_eq, hsb]
      rfl
  · intro hex
    obtain ⟨e0, he0, hin0⟩ := hex
    have hsome2 : ((scanBest (buildEnemies myId players mobs) ox oy).1).isSome :=
      scanFold_exists ox oy (buildEnemies myId players mobs)
        (none, AIM_DETECT_R * AIM_DETECT_R) (fun _ => le_refl _) ⟨e0, he0, hin0⟩
    have hspec2 := scanFold_some_spec ox oy (buildEnemies myId players mobs)
      (none, AIM_DETECT_R * AIM_DETECT_R) (fun f hf => Option.noConfusion hf)
    rcases hsb : scanBest (buildEnemies myId players mobs) ox oy with ⟨oe, bd⟩
    rw [hsb] at hsome2
    rcases oe with _ | f
    · simp at hsome2
    · have hspec3 : ((scanBest (buildEnemies myId players mobs) ox oy).2
          ≤ AIM_DETECT_R * AIM_DETECT_R) ∧
        (∀ e ∈ buildEnemies myId players mobs,
          (scanBest (buildEnemies myId players mobs) ox oy).2 ≤ dist2 ox oy e) ∧
        (∀ g, (scanBest (buildEnemies myId players mobs) ox oy).1 = some g →
          (g ∈ buildEnemies myId players mobs ∨
            ((none : Option Enemy), AIM_DETECT_R * AIM_DETECT_R).1 = some g) ∧
          dist2 ox oy g = (scanBest (buildEnemies myId players mobs) ox oy).2) := hspec2
      rw [hsb] at hspec3
      obtain ⟨hle, hall, hsomeSpec⟩ := hspec3
      obtain ⟨hmem, hd⟩ := hsomeSpec f rfl
      have hfmem : f ∈ buildEnemies myId players mobs := by
        rcases hmem with h | h
        · exact h
        · exact Option.noConfusion h
      have hfin : inRange ox oy f := by
        show dist2 ox oy f ≤ AIM_DETECT_R * AIM_DETECT_R
        rw [hd]
        exact hle
      refine ⟨f, hfmem, hfin, ?_, ?_, ?_⟩
      · rw [updateAimLock_rescan _ _ _ _ hstick, hsb]
      · rw [ctrlUpdateLock_rescan _ _ _ _ hstick, ctrlScan_eq, hsb]
        rfl
      · intro g hg _
        rw [hd]
        exact hall g hg

/-- Local player record for the reacquisition example. -/
def pMe : PlayerState := { pPrevA with id := "me" }

/-- Active enemy player 1000 units away (outside detection range). -/
def pFar : PlayerState := { pPrevA with id := "far", x := 1000, y := 0 }

/-- Inactive enemy player close by (filtered out of the candidate list). -/
def pDead : PlayerState := { pPrevA with id := "dead", x := 1, y := 1, a := false }

/-- Active mob 5 units away (inside detection range). -/
def mW : MobState := { mA with id := "w", x := 3, y := 4 }

/-- Player collection for the reacquisition example. -/
def playersW : AList PlayerState := [("me", pMe), ("far", pFar), ("dead", pDead)]

/-- Mob collection for the reacquisition example. -/
def mobsW : AList MobState := [("w", mW)]

/-- Aim state locked on an id that is no longer among the candidates. -/
def aimW : AimState := { AimState.init with target_id := some "p_gone" }

/-- Witness for C7: with the old lock gone, the same update acquires the
unique in-range candidate (the mob 5 units away) on both paths. -/
theorem c7_lock_clear_and_reacquire_witness :
    (updateAimLock (buildEnemies "me" playersW mobsW) 0 0 aimW).target_id = some "m_w" ∧
    (ctrlUpdateLock (buildEnemies "me" playersW mobsW) 0 0 aimW.target_id).1 = some "m_w" := by
  have hstick : ∀ tid, aimW.target_id = some tid →
      stickyKeep (buildEnemies "me" playersW mobsW) 0 0 tid = none := by
    intro tid h
    have h2 : some "p_gone" = some tid := h
    injection h2 with h3
    subst h3
    decide
  obtain ⟨e, hmem, hin, hupd, hctrl, hmin⟩ :=
    (c7_lock_clear_and_reacquire playersW mobsW "me" 0 0 aimW hstick).2.2
      ⟨⟨"m_w", 3, 4⟩, by decide, by norm_num [inRange, dist2, AIM_DETECT_R]⟩
  have hE : buildEnemies "me" playersW mobsW
      = [⟨"p_far", 1000, 0⟩, ⟨"m_w", 3, 4⟩] := by decide
  rw [hE] at hmem
  rcases List.mem_cons.mp hmem with rfl | hmem2
  · exfalso
    revert hin
    norm_num [inRange, dist2, AIM_DETECT_R]
  · rcases List.mem_cons.mp hmem2 with rfl | hmem3
    · exact ⟨hupd, hctrl⟩
    · cases hmem3

/-- C8 (amended): an input frame is handed to the channel exactly when the
phase is one of Playing, Dead, Countdown, the local player id is set, and no
remote controller is attached; in every such state a frame is produced
unconditionally (stateless resend), and in every other state nothing is
sent. -/
theorem c8_input_send_condition (ops : TrigOps) (s : GameState) :
    (sendInput ops s).isSome ↔
      ((s.phase = Phase.Playing ∨ s.phase = Phase.Dead ∨ s.phase = Phase.Countdown) ∧
       s.my_id ≠ none ∧ s.controller_attached = false) := by
  unfold sendInput
  by_cases h1 : s.phase = Phase.Playing ∨ s.phase = Phase.Dead ∨ s.phase = Phase.Countdown
  · by_cases h2 : s.my_id = none
    · simp [h1, h2]
    · by_cases h3 : s.controller_attached
      · simp [h1, h2, h3]
      · simp [h1, h2, h3]
  · simp [h1]

/-- Playing-phase state with no local player id and no controller. -/
def st8 : GameState := { GameState.new with phase := Phase.Playing }

/-- Counterexample for C8 as stated: the phase is Playing and no remote
controller is attached, yet no input frame is sent, because the local
player id is unset — a suppression condition the claim omits. -/
theorem c8_input_send_condition_counterexample :
    st8.phase = Phase.Playing ∧ st8.controller_attached = false ∧
    sendInput trigZero st8 = none := by
  refine ⟨rfl, rfl, ?_⟩
  rfl

end SpaceGame
